import Mathlib

/-!
Shallow embedding of the bloom-budget transaction pipeline: the categorization
cascade, the fraud-detection heuristics, the budget service, the sync
scheduler's retry bookkeeping, and the manual-review UI flags.  Amounts are
embedded as rationals, dates as epoch milliseconds (integers), and database
tables as lists of rows.  Optional string columns are `Option String`, with
JavaScript truthiness (empty string is falsy) made explicit.
-/

namespace BloomBudget

/-- JavaScript truthiness of an optional string field:
`undefined`, `null` and the empty string are falsy. -/
def strTruthy : Option String → Bool
  | none => false
  | some s => !(s == "")

/-- JS `x.f || d` on an optional string field `f` and default `d`. -/
def orElseStr (o : Option String) (d : String) : String :=
  match o with
  | some s => if s == "" then d else s
  | none => d

/-- JS `String.prototype.trim`: strip leading and trailing whitespace. -/
def jsTrim (s : String) : String :=
  String.mk
    (((s.toList.dropWhile Char.isWhitespace).reverse.dropWhile
      Char.isWhitespace).reverse)

/-- JS `String.prototype.toLowerCase` (ASCII, which is all the keyword
patterns rely on). -/
def jsToLower (s : String) : String :=
  String.mk (s.toList.map Char.toLower)

/-- A row of the `transaction` table (fields used by the pipeline).
`date` is epoch milliseconds; `amount` is exact (the DB column is a decimal). -/
structure Txn where
  id : String
  userId : String
  amount : ℚ
  date : ℤ
  merchantName : Option String
  description : String
  categoryId : Option String
  categoryConfidence : ℤ
  isPending : Bool
  locationCity : Option String
  locationRegion : Option String
deriving DecidableEq, Repr

/-- `(s.drop i).take w.length = w`: the word `w` occurs in `s` at index `i`. -/
def substrAt (s w : List Char) (i : ℕ) : Bool :=
  (s.drop i).take w.length == w

/-- Substring test; embeds a JS regex that is a plain alternation of literal
keywords: `/k1|k2|.../.test s` holds iff some keyword occurs in `s`. -/
def containsStr (s w : String) : Bool :=
  (List.range (s.toList.length + 1)).any (fun i => substrAt s.toList w.toList i)

def containsAny (s : String) (kws : List String) : Bool :=
  kws.any (fun k => containsStr s k)

/-- JS regex word character `\w` = `[A-Za-z0-9_]`. -/
def wordChar (c : Char) : Bool :=
  c.isAlphanum || c == '_'

/-- The word `w` occurs in `s` at index `i` with `\b` boundaries on both
sides (the previous and the following character, when they exist, are
non-word characters; the keywords themselves consist of word characters). -/
def containsWordAt (s w : List Char) (i : ℕ) : Bool :=
  substrAt s w i &&
  (i == 0 || !wordChar (s.getD (i - 1) ' ')) &&
  (i + w.length == s.length || !wordChar (s.getD (i + w.length) ' '))

/-- Embeds `/\bk\b/.test s` for a literal keyword `k`. -/
def containsWord (s w : String) : Bool :=
  (List.range (s.toList.length + 1)).any (fun i => containsWordAt s.toList w.toList i)

def containsAnyWord (s : String) (kws : List String) : Bool :=
  kws.any (fun k => containsWord s k)

inductive FraudAlertSeverity
  | low
  | medium
  | high
deriving DecidableEq, Repr

inductive FraudAlertType
  | unusual_amount
  | unusual_location
  | rapid_transactions
deriving DecidableEq, Repr

/-- Result shape of `checkSketchyMerchant`. -/
structure SketchyCheck where
  isSketchy : Bool
  reason : String
  severity : FraudAlertSeverity
deriving DecidableEq, Repr

/-- Result shape of `checkUnusualLocation` / `checkRapidTransactions`. -/
structure UnusualCheck where
  isUnusual : Bool
  reason : String
  severity : FraudAlertSeverity
deriving DecidableEq, Repr

def gamblingKeywords : List String :=
  ["casino", "gambling", "poker", "slots", "bet", "bets", "betting",
   "lottery", "draftkings", "fanduel"]

def cryptoKeywords : List String :=
  ["coinbase", "binance", "kraken", "crypto", "bitcoin", "btc", "eth"]

def paydayKeywords : List String :=
  ["payday", "cash advance", "quick loan", "instant loan"]

def wireKeywords : List String :=
  ["wire transfer", "western union", "moneygram", "money order"]

def adultKeywords : List String :=
  ["adult", "xxx", "escort", "onlyfans"]

def suspiciousKeywords : List String :=
  ["temp charge", "pending", "authorization", "test transaction"]

def roundAmounts : List ℚ :=
  [1000, 2000, 5000, 10000]

/-- `FraudDetectionService.checkSketchyMerchant`: scans a fixed cascade of
keyword patterns over the lowercased merchant name and description, then the
exact large round amounts.  The gambling pattern uses `\b` word boundaries;
the others are plain substring alternations.  Note that this check receives
only the transaction itself: no user history is consulted. -/
def checkSketchyMerchant (t : Txn) : SketchyCheck :=
  let merchantName := jsToLower (orElseStr t.merchantName "")
  let description := jsToLower t.description
  let amount := |t.amount|
  if containsAnyWord merchantName gamblingKeywords
      || containsAnyWord description gamblingKeywords then
    ⟨true, "Gambling transaction detected", .medium⟩
  else if containsAny merchantName cryptoKeywords
      || containsAny description cryptoKeywords then
    ⟨true, "Cryptocurrency transaction detected", .low⟩
  else if containsAny merchantName paydayKeywords
      || containsAny description paydayKeywords then
    ⟨true, "Payday loan transaction detected", .high⟩
  else if containsAny merchantName wireKeywords
      || containsAny description wireKeywords then
    ⟨true, "Wire transfer detected", .medium⟩
  else if containsAny merchantName adultKeywords
      || containsAny description adultKeywords then
    ⟨true, "Adult content transaction detected", .low⟩
  else if containsAny merchantName suspiciousKeywords
      || containsAny description suspiciousKeywords then
    ⟨true, "Suspicious transaction description", .medium⟩
  else if roundAmounts.contains amount then
    ⟨true, "Large round number transaction (" ++ toString amount ++ ")", .medium⟩
  else
    ⟨false, "", .low⟩

def thirtyDaysMs : ℤ := 30 * 24 * 60 * 60 * 1000

def fiveMinutesMs : ℤ := 5 * 60 * 1000

/-- The rows fetched by `calculateUserBaseline`: the user's non-pending
transactions dated within the trailing 30 days of `now`. -/
def baselineTxns (db : List Txn) (uid : String) (now : ℤ) : List Txn :=
  db.filter (fun t =>
    t.userId == uid && decide (now - thirtyDaysMs ≤ t.date) && !t.isPending)

/-- The `"city,region"` key built by the baseline loop, for rows where both
location fields are truthy. -/
def locationKey (t : Txn) : Option String :=
  if strTruthy t.locationCity && strTruthy t.locationRegion then
    some (t.locationCity.getD "" ++ "," ++ t.locationRegion.getD "")
  else
    none

structure UserSpendingBaseline where
  typicalLocations : List String
  transactionCount : ℕ
deriving DecidableEq, Repr

/-- `FraudDetectionService.calculateUserBaseline`.  The source compares each
location count against `transactions.length * 0.1` in binary floating point;
since the double product `c * 0.1` for an integer count `c` rounds so that
the comparison `count >= length * 0.1` agrees with the exact rational
comparison `10 * count >= length` for every list length below `2 ^ 50`, we
embed the exact form. -/
def calculateUserBaseline (db : List Txn) (uid : String) (now : ℤ) :
    UserSpendingBaseline :=
  let txns := baselineTxns db uid now
  if txns.length = 0 then
    ⟨[], 0⟩
  else
    ⟨((txns.filterMap locationKey).dedup).filter
        (fun loc => txns.length ≤ 10 * (txns.filterMap locationKey).count loc),
      txns.length⟩

/-- `FraudDetectionService.checkUnusualLocation`.  The transaction's
`location.city` / `location.region` in the response shape are the DB columns
with empty strings mapped to `undefined`, so the JS truthiness guard is
`strTruthy` on the columns. -/
def checkUnusualLocation (db : List Txn) (now : ℤ) (uid : String) (t : Txn) :
    UnusualCheck :=
  if !(strTruthy t.locationCity && strTruthy t.locationRegion) then
    ⟨false, "", .low⟩
  else
    let baseline := calculateUserBaseline db uid now
    if baseline.transactionCount < 10 then
      ⟨false, "", .low⟩
    else
      let transactionLocation :=
        t.locationCity.getD "" ++ "," ++ t.locationRegion.getD ""
      if !(baseline.typicalLocations.contains transactionLocation) then
        ⟨true,
          "Transaction in unusual location: " ++ t.locationCity.getD ""
            ++ ", " ++ t.locationRegion.getD "",
          .medium⟩
      else
        ⟨false, "", .low⟩

/-- `FraudDetectionService.checkRapidTransactions`: the user's other
transactions dated in `[t.date - 5min, t.date)`. -/
def recentTransactions (db : List Txn) (uid : String) (t : Txn) : List Txn :=
  db.filter (fun o =>
    o.userId == uid && !(o.id == t.id)
      && decide (t.date - fiveMinutesMs ≤ o.date) && decide (o.date < t.date))

def checkRapidTransactions (db : List Txn) (uid : String) (t : Txn) :
    UnusualCheck :=
  let recent := recentTransactions db uid t
  if recent.length ≥ 4 then
    let count := recent.length + 1
    ⟨true,
      toString count ++ " transactions detected within a 5-minute window",
      if count ≥ 6 then .high else .medium⟩
  else
    ⟨false, "", .low⟩

structure CreateFraudAlertInput where
  userId : String
  transactionId : String
  alertType : FraudAlertType
  severity : FraudAlertSeverity
  reason : String
deriving DecidableEq, Repr

/-- A row of the `fraudAlert` table (the generated `id` column is omitted:
no code under verification reads it). -/
structure FraudAlert where
  userId : String
  transactionId : String
  alertType : FraudAlertType
  severity : FraudAlertSeverity
  reason : String
  isReviewed : Bool
  isFalsePositive : Bool
deriving DecidableEq, Repr

/-- `FraudAlertModel.validateCreateInput`: alert type and severity are valid
by construction of the inductive types, leaving the three trimmed-nonempty
string checks. -/
def validateFraudAlertInput (i : CreateFraudAlertInput) : Bool :=
  !(jsTrim i.userId == "") && !(jsTrim i.transactionId == "")
    && !(jsTrim i.reason == "")

/-- `FraudDetectionService.createFraudAlert` over an alert store: validate,
return the existing alert for the same `(transactionId, alertType)` pair
unchanged when there is one, otherwise insert a fresh row. -/
def createFraudAlert (store : List FraudAlert) (input : CreateFraudAlertInput) :
    Except String (List FraudAlert × FraudAlert) :=
  if !validateFraudAlertInput input then
    .error ("Validation failed")
  else
    match store.find? (fun a =>
        a.transactionId == input.transactionId
          && a.alertType == input.alertType) with
    | some existing => .ok (store, existing)
    | none =>
      let alert : FraudAlert :=
        ⟨input.userId, input.transactionId, input.alertType, input.severity,
          input.reason, false, false⟩
      .ok (store ++ [alert], alert)

/-- One conditional `createFraudAlert` call inside `analyzeTransaction`'s
`try` block; a thrown error aborts the remaining checks and keeps the alerts
accumulated so far. -/
def tryCreateAlert (acc : List FraudAlert × List FraudAlert × Bool)
    (fire : Bool) (input : CreateFraudAlertInput) :
    List FraudAlert × List FraudAlert × Bool :=
  match acc with
  | (store, alerts, aborted) =>
    if aborted || !fire then (store, alerts, aborted)
    else
      match createFraudAlert store input with
      | .ok (store2, a) => (store2, alerts ++ [a], false)
      | .error _ => (store, alerts, true)

/-- `FraudDetectionService.analyzeTransaction`: the sketchy-merchant check
(alert type `unusual_amount`), then the location check, then the rapid
check, each conditionally creating an alert.  Returns the updated alert
store and the list of alerts returned to the caller. -/
def analyzeTransaction (db : List Txn) (store : List FraudAlert) (now : ℤ)
    (t : Txn) : List FraudAlert × List FraudAlert :=
  let sketchy := checkSketchyMerchant t
  let acc1 := tryCreateAlert (store, [], false) sketchy.isSketchy
    ⟨t.userId, t.id, .unusual_amount, sketchy.severity, sketchy.reason⟩
  let loc := checkUnusualLocation db now t.userId t
  let acc2 := tryCreateAlert acc1 loc.isUnusual
    ⟨t.userId, t.id, .unusual_location, loc.severity, loc.reason⟩
  let rapid := checkRapidTransactions db t.userId t
  let acc3 := tryCreateAlert acc2 rapid.isUnusual
    ⟨t.userId, t.id, .rapid_transactions, rapid.severity, rapid.reason⟩
  (acc3.1, acc3.2.1)

/-- A sequence of `analyzeTransaction` calls starting from an empty alert
store, returning the final store. -/
def runAnalyses (db : List Txn) (now : ℤ) (txs : List Txn) : List FraudAlert :=
  txs.foldl (fun store t => (analyzeTransaction db store now t).1) []

/-- At most one alert per `(transactionId, alertType)` pair. -/
def AlertKeyUnique (store : List FraudAlert) : Prop :=
  store.Pairwise (fun a b =>
    ¬(a.transactionId = b.transactionId ∧ a.alertType = b.alertType))

/-! ### Categorization service -/

/-- A row of the `category` table. -/
structure Category where
  id : String
  userId : Option String
  name : String
  isSystem : Bool
deriving DecidableEq, Repr

/-- A row of the `categorizationRule` table. -/
structure Rule where
  id : String
  userId : String
  merchantPattern : String
  categoryId : String
  priority : ℤ
  learnedFromUser : Bool
deriving DecidableEq, Repr

structure CategorizationResult where
  categoryId : String
  confidence : ℕ
deriving DecidableEq, Repr

structure TransactionForCategorization where
  merchantName : Option String
  description : String
  plaidCategory : Option (List String)
deriving DecidableEq, Repr

/-- Environment of `CategorizationService.categorizeTransaction` for one
user: the user's rules, the `category` table, the regex tester behind
`CategorizationRuleModel.matchesMerchant` (left abstract: it runs an
arbitrary stored pattern through the JS regex engine), whether an OpenAI key
is configured, the AI's (trimmed) suggestion for this transaction when one
comes back, and the id `prisma.category.create` would mint if the
`Uncategorized` row had to be created. -/
structure CatEnv where
  rules : List Rule
  categories : List Category
  ruleMatches : String → String → Bool
  openaiConfigured : Bool
  aiSuggestion : Option String
  freshUncategorizedId : String

/-- `orderBy { priority: 'desc' }` on the user's rules: insertion sort by
descending priority. -/
def insertByPriority (r : Rule) : List Rule → List Rule
  | [] => [r]
  | x :: xs =>
    if x.priority ≤ r.priority then r :: x :: xs else x :: insertByPriority r xs

def sortByPriorityDesc (rules : List Rule) : List Rule :=
  rules.foldr insertByPriority []

/-- `CategorizationService.matchUserRules`: scan the user's rules in
descending priority order and return the first whose stored pattern matches
the merchant name (falling back to the description), with confidence 95. -/
def matchUserRules (env : CatEnv) (t : TransactionForCategorization) :
    Option CategorizationResult :=
  let merchantName := orElseStr t.merchantName t.description
  ((sortByPriorityDesc env.rules).find?
      (fun r => env.ruleMatches r.merchantPattern merchantName)).map
    (fun r => ⟨r.categoryId, 95⟩)

/-- The built-in merchant keyword patterns of
`CategorizationService.matchMerchantPattern`: each regex is an alternation
of literal keywords, paired with a system category name and a confidence. -/
def merchantPatterns : List (List String × String × ℕ) :=
  [(["walmart", "target", "costco", "kroger", "safeway", "whole foods",
     "publix", "trader joe"], ("Groceries", 85)),
   (["shell", "chevron", "exxon", "bp", "gas", "fuel", "marathon",
     "speedway", "circle k"], ("Gas & Fuel", 85)),
   (["chick-fil-a", "chick fil a", "sonic", "mcdonald", "burger king",
     "wendy", "taco bell", "subway", "chipotle", "panera"], ("Dining", 90)),
   (["starbucks", "coffee", "cafe", "dunkin", "dutch bros"], ("Dining", 85)),
   (["restaurant", "pizza", "burger", "food", "dining", "grill", "kitchen",
     "bistro"], ("Dining", 75)),
   (["amazon", "ebay", "etsy", "apple", "one apple"], ("Shopping", 80)),
   (["netflix", "spotify", "hulu", "disney", "apple music", "youtube",
     "hbo"], ("Entertainment", 90)),
   (["uber", "lyft", "taxi", "transit", "auto shop", "service",
     "mechanic"], ("Transportation", 85)),
   (["duke energy", "piedmont", "natural gas", "electric", "water",
     "utility", "power", "energy"], ("Utilities", 90)),
   (["at&t", "verizon", "t-mobile", "sprint", "comcast", "xfinity",
     "internet", "phone", "cable"], ("Bills & Payments", 90)),
   (["pharmacy", "cvs", "walgreens", "doctor", "hospital", "medical",
     "health", "clinic"], ("Healthcare", 85)),
   (["gym", "fitness", "yoga", "sports", "planet fitness",
     "la fitness"], ("Health & Fitness", 85)),
   (["charity", "donation", "young life", "church",
     "nonprofit"], ("Personal Care", 80)),
   (["betterment", "vanguard", "fidelity", "schwab", "investment",
     "bank"], ("Bills & Payments", 80))]

/-- `findFirst { name, isSystem: true }` on the `category` table. -/
def findSystemCategory (env : CatEnv) (name : String) : Option Category :=
  env.categories.find? (fun c => c.name == name && c.isSystem)

/-- `CategorizationService.matchMerchantPattern`: first keyword pattern that
matches the lowercased merchant info and whose system category exists. -/
def matchMerchantPattern (env : CatEnv) (t : TransactionForCategorization) :
    Option CategorizationResult :=
  let merchantInfo := orElseStr t.merchantName t.description
  if merchantInfo == "" then
    none
  else
    let merchantName := jsToLower merchantInfo
    merchantPatterns.findSome? (fun p =>
      if containsAny merchantName p.1 then
        (findSystemCategory env p.2.1).map (fun c => ⟨c.id, p.2.2⟩)
      else
        none)

/-- The Plaid-to-system category name mapping of
`CategorizationService.matchPlaidCategory`. -/
def categoryMapping : List (String × String) :=
  [("Food and Drink", "Dining"), ("Restaurants", "Dining"),
   ("Groceries", "Groceries"), ("Gas Stations", "Gas & Fuel"),
   ("Transportation", "Transportation"), ("Travel", "Travel"),
   ("Entertainment", "Entertainment"), ("Shopping", "Shopping"),
   ("Healthcare", "Healthcare"), ("Utilities", "Utilities"),
   ("Rent", "Housing"), ("Mortgage", "Housing")]

/-- `CategorizationService.matchPlaidCategory`: map the most specific (last)
upstream category name to a system category, confidence 70. -/
def matchPlaidCategory (env : CatEnv) (t : TransactionForCategorization) :
    Option CategorizationResult :=
  match t.plaidCategory with
  | none => none
  | some cats =>
    if cats.length = 0 then
      none
    else
      let plaidCategoryName := cats.getLastD ""
      match categoryMapping.find? (fun p => p.1 == plaidCategoryName) with
      | none => none
      | some p =>
        (findSystemCategory env p.2).map (fun c => ⟨c.id, 70⟩)

/-- `CategorizationService.categorizeWithAI`: the categories visible to the
user, the model's suggested name compared case-insensitively, confidence 80;
any API error yields `none` (caught in the source). -/
def categorizeWithAI (env : CatEnv) (uid : String)
    (_t : TransactionForCategorization) : Option CategorizationResult :=
  let categories := env.categories.filter
    (fun c => c.isSystem || c.userId == some uid)
  match env.aiSuggestion with
  | none => none
  | some suggested =>
    (categories.find? (fun c => jsToLower c.name == jsToLower suggested)).map
      (fun c => ⟨c.id, 80⟩)

/-- `CategorizationService.getDefaultCategory`: the system `Uncategorized`
category's id, or the id minted for it when it does not exist yet (the
created row itself is not needed by any claim under verification). -/
def getDefaultCategory (env : CatEnv) : String :=
  match findSystemCategory env ("Uncategorized") with
  | some c => c.id
  | none => env.freshUncategorizedId

/-- `CategorizationService.categorizeTransaction`: the rule-priority
cascade. -/
def categorizeTransaction (env : CatEnv) (uid : String)
    (t : TransactionForCategorization) : CategorizationResult :=
  match matchUserRules env t with
  | some r => r
  | none =>
    match matchMerchantPattern env t with
    | some r => r
    | none =>
      match matchPlaidCategory env t with
      | some r => r
      | none =>
        match (if env.openaiConfigured then categorizeWithAI env uid t
               else none) with
        | some r => r
        | none => ⟨getDefaultCategory env, 0⟩

/-! ### Budget service -/

/-- A row of the `budget` table. -/
structure Budget where
  id : String
  userId : String
  categoryId : String
  amount : ℚ
  period : String
  startDate : ℤ
  endDate : ℤ
  alertThreshold : ℚ
  isActive : Bool
deriving DecidableEq, Repr

structure CreateBudgetInput where
  userId : String
  categoryId : String
  amount : ℚ
  period : String
  startDate : ℤ
  endDate : ℤ
  alertThreshold : Option ℚ
deriving DecidableEq, Repr

/-- `BudgetModel.validatePeriod`. -/
def validatePeriod (p : String) : Bool :=
  p == "monthly" || p == "quarterly" || p == "annual"

/-- `BudgetModel.validateAlertThreshold`. -/
def validateAlertThreshold (t : ℚ) : Bool :=
  decide (0 < t) && decide (t ≤ 100)

/-- `BudgetModel.validateDateRange`. -/
def validateDateRange (s e : ℤ) : Bool :=
  decide (s < e)

/-- `BudgetModel.validateCreateInput`: in the embedding the amount and both
dates are always present, so the undefined-field errors cannot arise. -/
def validateCreateBudgetInput (i : CreateBudgetInput) : Bool :=
  !(jsTrim i.userId == "") && !(jsTrim i.categoryId == "")
    && decide (0 < i.amount) && validatePeriod i.period
    && validateDateRange i.startDate i.endDate
    && (match i.alertThreshold with
        | none => true
        | some t => validateAlertThreshold t)

/-- The three-clause overlap condition of `BudgetService.createBudget`'s
`prisma.budget.findFirst` call, against one stored budget. -/
def overlapsBudget (b : Budget) (i : CreateBudgetInput) : Bool :=
  b.userId == i.userId && b.categoryId == i.categoryId && b.isActive
    && ((decide (b.startDate ≤ i.startDate) && decide (i.startDate ≤ b.endDate))
      || (decide (b.startDate ≤ i.endDate) && decide (i.endDate ≤ b.endDate))
      || (decide (i.startDate ≤ b.startDate) && decide (b.endDate ≤ i.endDate)))

/-- State seen by the budget service. -/
structure BudgetState where
  budgets : List Budget
  categories : List Category
  transactions : List Txn
deriving Repr

/-- Prisma `OR: [{ userId }, { isSystem: true }]` category ownership check
used by the budget and transaction services. -/
def categoryAccessible (c : Category) (cid uid : String) : Bool :=
  c.id == cid && (c.userId == some uid || c.isSystem)

/-- `BudgetService.createBudget`.  `newId` is the id the insert would mint.
JS `input.alertThreshold || 80` treats a zero threshold as falsy, hence the
explicit zero case (unreachable after validation, which rejects 0). -/
def createBudget (st : BudgetState) (i : CreateBudgetInput) (newId : String) :
    Except String (BudgetState × Budget) :=
  if !validateCreateBudgetInput i then
    .error ("Validation failed")
  else
    match st.categories.find? (fun c => categoryAccessible c i.categoryId i.userId) with
    | none => .error ("Category not found")
    | some _ =>
      if st.budgets.any (fun b => overlapsBudget b i) then
        .error ("A budget already exists for this category in the specified time period")
      else
        let b : Budget :=
          ⟨newId, i.userId, i.categoryId, i.amount, i.period, i.startDate,
            i.endDate,
            (match i.alertThreshold with
             | some t => if t = 0 then 80 else t
             | none => 80),
            true⟩
        .ok ({ st with budgets := st.budgets ++ [b] }, b)

/-- The stored budgets after a `createBudget` call (unchanged when it
throws). -/
def budgetsAfterCreate (st : BudgetState) (i : CreateBudgetInput)
    (newId : String) : List Budget :=
  match createBudget st i newId with
  | .ok (st2, _) => st2.budgets
  | .error _ => st.budgets

/-- The transactions summed by `BudgetService.calculateSpending` for a
budget: the user's non-pending transactions in the budget's category dated
within `[startDate, endDate]`. -/
def spendingTxns (db : List Txn) (b : Budget) : List Txn :=
  db.filter (fun t =>
    t.userId == b.userId && t.categoryId == some b.categoryId
      && decide (b.startDate ≤ t.date) && decide (t.date ≤ b.endDate)
      && !t.isPending)

/-- `BudgetService.calculateSpending`: look the budget up by id and user,
then aggregate the matching transaction amounts. -/
def calculateSpending (st : BudgetState) (budgetId uid : String) :
    Except String ℚ :=
  match st.budgets.find? (fun b => b.id == budgetId && b.userId == uid) with
  | none => .error ("Budget not found")
  | some b => .ok ((spendingTxns st.transactions b).map (fun t => t.amount)).sum

def msPerDay : ℤ := 1000 * 60 * 60 * 24

structure BudgetProgress where
  budget : Budget
  currentSpending : ℚ
  percentageUsed : ℚ
  remainingAmount : ℚ
  daysRemaining : ℤ
  isOverBudget : Bool
  shouldAlert : Bool
deriving DecidableEq, Repr

/-- `BudgetService.getBudgetProgress`. -/
def getBudgetProgress (st : BudgetState) (budgetId uid : String) (now : ℤ) :
    Except String BudgetProgress :=
  match st.budgets.find? (fun b => b.id == budgetId && b.userId == uid) with
  | none => .error ("Budget not found")
  | some budget =>
    match calculateSpending st budgetId uid with
    | .error e => .error e
    | .ok currentSpending =>
      let budgetAmount := budget.amount
      let percentageUsed :=
        if 0 < budgetAmount then currentSpending / budgetAmount * 100 else 0
      let remainingAmount := budgetAmount - currentSpending
      let daysRemaining :=
        max 0 (Int.ceil ((budget.endDate - now : ℚ) / (msPerDay : ℚ)))
      ⟨budget, currentSpending, percentageUsed, remainingAmount, daysRemaining,
        decide (budgetAmount < currentSpending),
        decide (budget.alertThreshold ≤ percentageUsed)⟩ |> .ok

/-! ### Sync scheduler -/

def SYNC_INTERVAL_MS : ℕ := 24 * 60 * 60 * 1000

def MAX_RETRIES : ℕ := 3

def BASE_RETRY_DELAY_MS : ℕ := 60 * 60 * 1000

structure RetryInfo where
  retryCount : ℕ
  nextRetry : ℤ
deriving DecidableEq, Repr

/-- The scheduler's in-memory `retryQueue` map, as an association list with
unique keys maintained by `setKey` / `deleteKey`. -/
abbrev RetryQueue := List (String × RetryInfo)

def lookupKey (q : RetryQueue) (k : String) : Option RetryInfo :=
  (q.find? (fun p => p.1 == k)).map (fun p => p.2)

def deleteKey (q : RetryQueue) (k : String) : RetryQueue :=
  q.filter (fun p => !(p.1 == k))

def setKey (q : RetryQueue) (k : String) (v : RetryInfo) : RetryQueue :=
  deleteKey q k ++ [(k, v)]

/-- The observable effect of a `handleSyncFailure` call besides the map
update: either a retry is scheduled via `setTimeout` after `delayMs`, or
the scheduler gives up on the account. -/
inductive SyncAction
  | scheduleRetry (delayMs : ℕ)
  | giveUp
deriving DecidableEq, Repr

/-- `SyncScheduler.handleSyncFailure`. -/
def handleSyncFailure (q : RetryQueue) (accountId : String) (now : ℤ) :
    RetryQueue × SyncAction :=
  let info := (lookupKey q accountId).getD ⟨0, now⟩
  let retryCount := info.retryCount + 1
  if retryCount ≤ MAX_RETRIES then
    let delayMs := BASE_RETRY_DELAY_MS * 2 ^ (retryCount - 1)
    (setKey q accountId ⟨retryCount, now + (delayMs : ℤ)⟩,
      .scheduleRetry delayMs)
  else
    (deleteKey q accountId, .giveUp)

/-- The `retryQueue.delete(accountId)` performed on a successful sync (in
`runDailySync` and in `retrySync`). -/
def handleSyncSuccess (q : RetryQueue) (accountId : String) : RetryQueue :=
  deleteKey q accountId

/-! ### Transaction service: manual recategorization -/

/-- Application state seen by `TransactionService.updateCategory` and
`CategorizationService.learnFromCorrection`. -/
structure AppState where
  transactions : List Txn
  categories : List Category
  rules : List Rule
deriving Repr

/-- One alternative of the suffix group in
`/\s+(inc|llc|ltd|corp|co|store|#\d+)\.?$/i`. -/
def isSuffixToken (w : String) : Bool :=
  let lw := jsToLower w
  lw == "inc" || lw == "llc" || lw == "ltd" || lw == "corp" || lw == "co"
    || lw == "store"
    || (match lw.toList with
        | c :: rest => c == '#' && !rest.isEmpty && rest.all Char.isDigit
        | [] => false)

/-- `merchantName.replace(/\s+(inc|llc|ltd|corp|co|store|#\d+)\.?$/i, '')`:
the suffix tokens contain no dot and no whitespace, so the regex matches
exactly when, after an optional single trailing dot, the string ends in a
whitespace run followed by one of the tokens; the match (which the replace
removes) then starts at that whitespace run. -/
def stripMerchantSuffix (s : String) : String :=
  let cs := s.toList
  let csNoDot := if cs.getLast? == some '.' then cs.dropLast else cs
  let rev := csNoDot.reverse
  let wordRev := rev.takeWhile (fun c => !c.isWhitespace)
  let rest := rev.drop wordRev.length
  let wsRev := rest.takeWhile Char.isWhitespace
  let headRev := rest.drop wsRev.length
  if !wsRev.isEmpty && isSuffixToken (String.mk wordRev.reverse) then
    String.mk headRev.reverse
  else
    s

def regexSpecialChars : List Char :=
  ['.', '*', '+', '?', '^', '$', '\x7b', '\x7d', '(', ')', '|', '[', ']', '\\']

/-- `cleanName.replace(/[.*+?^${}()|[\]\\]/g, '\\$&')`. -/
def escapeRegex (s : String) : String :=
  String.mk (s.toList.flatMap (fun c =>
    if regexSpecialChars.contains c then ['\\', c] else [c]))

/-- `CategorizationService.createMerchantPattern`. -/
def createMerchantPattern (merchantName : String) : String :=
  "^" ++ escapeRegex (jsTrim (stripMerchantSuffix merchantName))

/-- The highest priority among the user's rules, mirroring
`findFirst({ where: { userId }, orderBy: { priority: 'desc' } })`. -/
def maxUserPriority : List Rule → String → Option ℤ
  | [], _ => none
  | r :: rs, uid =>
    let rest := maxUserPriority rs uid
    if r.userId == uid then
      some (match rest with
            | none => r.priority
            | some p => max r.priority p)
    else rest

/-- `CategorizationService.learnFromCorrection`.  `newRuleId` is the id a
fresh rule row would get. -/
def learnFromCorrection (st : AppState) (uid transactionId newCategoryId : String)
    (newRuleId : String) : Except String AppState :=
  match st.transactions.find? (fun t => t.id == transactionId && t.userId == uid) with
  | none => .error ("Transaction not found")
  | some transaction =>
    match st.categories.find? (fun c => categoryAccessible c newCategoryId uid) with
    | none => .error ("Category not found")
    | some _ =>
      let merchantName := orElseStr transaction.merchantName transaction.description
      let merchantPattern := createMerchantPattern merchantName
      match st.rules.find? (fun r =>
          r.userId == uid && r.merchantPattern == merchantPattern) with
      | some existingRule =>
        .ok { st with rules := st.rules.map (fun r =>
          if r.id == existingRule.id then
            { r with categoryId := newCategoryId,
                     priority := r.priority + 1,
                     learnedFromUser := true }
          else r) }
      | none =>
        let newPriority :=
          match maxUserPriority st.rules uid with
          | some p => p + 1
          | none => 100
        .ok { st with rules := st.rules ++
          [⟨newRuleId, uid, merchantPattern, newCategoryId, newPriority, true⟩] }

/-- `TransactionService.updateCategory`: ownership and category checks, the
confidence-100 update, then `learnFromCorrection` whose failure is caught
and does not undo the update. -/
def updateCategory (st : AppState) (transactionId uid categoryId : String)
    (newRuleId : String) : Except String AppState :=
  match st.transactions.find? (fun t => t.id == transactionId && t.userId == uid) with
  | none => .error ("Transaction not found")
  | some _ =>
    match st.categories.find? (fun c => categoryAccessible c categoryId uid) with
    | none => .error ("Category not found")
    | some _ =>
      let st1 : AppState :=
        { st with transactions := st.transactions.map (fun t =>
            if t.id == transactionId then
              { t with categoryId := some categoryId, categoryConfidence := 100 }
            else t) }
      match learnFromCorrection st1 uid transactionId categoryId newRuleId with
      | .ok st2 => .ok st2
      | .error _ => .ok st1

/-! ### Manual-review flags in the UI -/

/-- The `Review` badge of the transactions list page: rendered when
`transaction.categoryConfidence < 70 && transaction.categoryName` is truthy
(the joined category name must be a nonempty string). -/
def listReviewBadge (categoryConfidence : ℤ) (categoryName : Option String) :
    Bool :=
  decide (categoryConfidence < 70) && strTruthy categoryName

/-- The low-confidence marker of the transaction detail view: rendered when
`transaction.categoryConfidence < 70`. -/
def detailReviewBadge (categoryConfidence : ℤ) : Bool :=
  decide (categoryConfidence < 70)

/-! ### Helper lemmas -/

theorem find?_append_of_none {α} (p : α → Bool) (l₁ l₂ : List α)
    (h : l₁.find? p = none) : (l₁ ++ l₂).find? p = l₂.find? p := by
  induction l₁ with
  | nil => rfl
  | cons x xs ih =>
    cases hp : p x with
    | true => simp [List.find?_cons_of_pos, hp] at h
    | false =>
      have hp' : ¬ p x = true := by simp [hp]
      rw [List.find?_cons_of_neg _ hp'] at h
      rw [List.cons_append, List.find?_cons_of_neg _ hp']
      exact ih h

theorem lookupKey_deleteKey (q : RetryQueue) (k : String) :
    lookupKey (deleteKey q k) k = none := by
  have : (deleteKey q k).find? (fun p => p.1 == k) = none := by
    rw [List.find?_eq_none]
    intro x hx
    have := (List.mem_filter.mp hx).2
    simpa using this
  simp [lookupKey, this]

theorem lookupKey_setKey (q : RetryQueue) (k : String) (v : RetryInfo) :
    lookupKey (setKey q k v) k = some v := by
  have hnone : (deleteKey q k).find? (fun p => p.1 == k) = none := by
    rw [List.find?_eq_none]
    intro x hx
    have := (List.mem_filter.mp hx).2
    simpa using this
  unfold setKey lookupKey
  rw [find?_append_of_none _ _ _ hnone]
  simp [List.find?_cons]

theorem mem_typicalLocations_iff (db : List Txn) (uid : String) (now : ℤ)
    (loc : String) (hlen : (baselineTxns db uid now).length ≠ 0) :
    loc ∈ (calculateUserBaseline db uid now).typicalLocations ↔
      (baselineTxns db uid now).length ≤
        10 * ((baselineTxns db uid now).filterMap locationKey).count loc := by
  unfold calculateUserBaseline
  rw [if_neg hlen]
  dsimp only
  rw [List.mem_filter]
  constructor
  · rintro ⟨-, h⟩
    simpa using h
  · intro h
    have hpos : 0 <
        ((baselineTxns db uid now).filterMap locationKey).count loc := by
      have := Nat.pos_of_ne_zero hlen
      omega
    exact ⟨List.mem_dedup.mpr (List.count_pos_iff.mp hpos), by simpa using h⟩

theorem createFraudAlert_preserves_unique (store : List FraudAlert)
    (input : CreateFraudAlertInput) (store2 : List FraudAlert) (a : FraudAlert)
    (h : AlertKeyUnique store)
    (hc : createFraudAlert store input = .ok (store2, a)) :
    AlertKeyUnique store2 := by
  unfold createFraudAlert at hc
  by_cases hv : validateFraudAlertInput input = true
  · rw [hv] at hc
    simp only [Bool.not_true, Bool.false_eq_true, if_false] at hc
    cases hfind : store.find? (fun x =>
        x.transactionId == input.transactionId
          && x.alertType == input.alertType) with
    | some existing =>
      rw [hfind] at hc
      cases hc
      exact h
    | none =>
      rw [hfind] at hc
      cases hc
      rw [AlertKeyUnique, List.pairwise_append]
      refine ⟨h, List.pairwise_singleton _ _, ?_⟩
      intro x hx b hb
      have hpx := List.find?_eq_none.mp hfind x hx
      have hb' : b = ⟨input.userId, input.transactionId, input.alertType,
          input.severity, input.reason, false, false⟩ := by
        simpa using hb
      intro hcontra
      apply hpx
      rw [hb'] at hcontra
      simp [hcontra.1, hcontra.2]
  · rw [Bool.not_eq_true] at hv
    rw [hv] at hc
    simp at hc

theorem tryCreateAlert_preserves_unique
    (acc : List FraudAlert × List FraudAlert × Bool) (fire : Bool)
    (input : CreateFraudAlertInput) (h : AlertKeyUnique acc.1) :
    AlertKeyUnique (tryCreateAlert acc fire input).1 := by
  obtain ⟨store, alerts, aborted⟩ := acc
  unfold tryCreateAlert
  dsimp only
  by_cases hg : (aborted || !fire) = true
  · rw [if_pos hg]
    exact h
  · rw [if_neg hg]
    cases hc : createFraudAlert store input with
    | ok p =>
      obtain ⟨store2, a⟩ := p
      exact createFraudAlert_preserves_unique store input store2 a h hc
    | error e => exact h

theorem analyzeTransaction_preserves_unique (db : List Txn)
    (store : List FraudAlert) (now : ℤ) (t : Txn)
    (h : AlertKeyUnique store) :
    AlertKeyUnique (analyzeTransaction db store now t).1 := by
  unfold analyzeTransaction
  exact tryCreateAlert_preserves_unique _ _ _
    (tryCreateAlert_preserves_unique _ _ _
      (tryCreateAlert_preserves_unique _ _ _ h))

theorem runAnalyses_unique (db : List Txn) (now : ℤ) (txs : List Txn) :
    AlertKeyUnique (runAnalyses db now txs) := by
  have aux : ∀ (l : List Txn) (store : List FraudAlert),
      AlertKeyUnique store →
      AlertKeyUnique (l.foldl
        (fun s t => (analyzeTransaction db s now t).1) store) := by
    intro l
    induction l with
    | nil => intro store h; exact h
    | cons t ts ih =>
      intro store h
      exact ih _ (analyzeTransaction_preserves_unique db store now t h)
  exact aux txs [] List.Pairwise.nil

theorem find?_map_id_pred {α} (f : α → α) (p : α → Bool) (l : List α)
    (hp : ∀ x, p (f x) = p x) :
    (l.map f).find? p = (l.find? p).map f := by
  induction l with
  | nil => rfl
  | cons x xs ih =>
    cases hx : p x with
    | true =>
      rw [List.map_cons, List.find?_cons_of_pos _ (by rw [hp]; exact hx),
        List.find?_cons_of_pos _ hx]
      rfl
    | false =>
      rw [List.map_cons,
        List.find?_cons_of_neg _ (by rw [hp]; simp [hx]),
        List.find?_cons_of_neg _ (by simp [hx])]
      exact ih

theorem maxUserPriority_le (rules : List Rule) (uid : String) (r : Rule)
    (hm : r ∈ rules) (hu : r.userId = uid) :
    ∃ p, maxUserPriority rules uid = some p ∧ r.priority ≤ p := by
  induction rules with
  | nil => simp at hm
  | cons x xs ih =>
    rcases List.mem_cons.mp hm with rfl | hm'
    · have hx : (r.userId == uid) = true := by simp [hu]
      unfold maxUserPriority
      rw [if_pos hx]
      cases hrest : maxUserPriority xs uid with
      | none => exact ⟨r.priority, rfl, le_refl _⟩
      | some p => exact ⟨max r.priority p, rfl, le_max_left _ _⟩
    · obtain ⟨p, hp, hle⟩ := ih hm'
      unfold maxUserPriority
      by_cases hx : (x.userId == uid) = true
      · rw [if_pos hx, hp]
        exact ⟨max x.priority p, rfl, le_trans hle (le_max_right _ _)⟩
      · rw [if_neg hx]
        exact ⟨p, hp, hle⟩

theorem maxUserPriority_eq_none (rules : List Rule) (uid : String)
    (h : ∀ r ∈ rules, r.userId ≠ uid) : maxUserPriority rules uid = none := by
  induction rules with
  | nil => rfl
  | cons x xs ih =>
    unfold maxUserPriority
    have hx : ¬ ((x.userId == uid) = true) := by
      simp only [beq_iff_eq]
      exact h x (List.mem_cons_self x xs)
    rw [if_neg hx]
    exact ih (fun r hr => h r (List.mem_cons_of_mem x hr))

theorem mem_insertByPriority (r x : Rule) (l : List Rule) :
    x ∈ insertByPriority r l ↔ x = r ∨ x ∈ l := by
  induction l with
  | nil => simp [insertByPriority]
  | cons y ys ih =>
    unfold insertByPriority
    by_cases h : y.priority ≤ r.priority
    · simp [h]
    · rw [if_neg h]
      simp only [List.mem_cons, ih]
      tauto

theorem sorted_insertByPriority (r : Rule) (l : List Rule)
    (h : l.Pairwise (fun a b => b.priority ≤ a.priority)) :
    (insertByPriority r l).Pairwise (fun a b => b.priority ≤ a.priority) := by
  induction l with
  | nil => simp [insertByPriority]
  | cons y ys ih =>
    rw [List.pairwise_cons] at h
    obtain ⟨hy, hys⟩ := h
    unfold insertByPriority
    by_cases hc : y.priority ≤ r.priority
    · rw [if_pos hc, List.pairwise_cons]
      refine ⟨?_, List.pairwise_cons.mpr ⟨hy, hys⟩⟩
      intro b hb
      rcases List.mem_cons.mp hb with rfl | hb'
      · exact hc
      · exact le_trans (hy b hb') hc
    · rw [if_neg hc, List.pairwise_cons]
      refine ⟨?_, ih hys⟩
      intro b hb
      rcases (mem_insertByPriority r b ys).mp hb with rfl | hb'
      · exact le_of_not_le hc
      · exact hy b hb'

theorem sorted_sortByPriorityDesc (l : List Rule) :
    (sortByPriorityDesc l).Pairwise (fun a b => b.priority ≤ a.priority) := by
  induction l with
  | nil => exact List.Pairwise.nil
  | cons x xs ih => exact sorted_insertByPriority x _ ih

theorem mem_sortByPriorityDesc (l : List Rule) (x : Rule) :
    x ∈ sortByPriorityDesc l ↔ x ∈ l := by
  induction l with
  | nil => simp [sortByPriorityDesc]
  | cons y ys ih =>
    show x ∈ insertByPriority y (sortByPriorityDesc ys) ↔ _
    rw [mem_insertByPriority]
    simp only [List.mem_cons, ih]

theorem find?_max_of_sorted {p : Rule → Bool} {l : List Rule} {c : Rule}
    (hs : l.Pairwise (fun a b => b.priority ≤ a.priority))
    (hf : l.find? p = some c) :
    ∀ x ∈ l, p x = true → x.priority ≤ c.priority := by
  induction l with
  | nil => simp at hf
  | cons y ys ih =>
    rw [List.pairwise_cons] at hs
    obtain ⟨hy, hys⟩ := hs
    cases hp : p y with
    | true =>
      rw [List.find?_cons_of_pos _ hp] at hf
      cases hf
      intro x hx _
      rcases List.mem_cons.mp hx with rfl | hx'
      · exact le_refl _
      · exact hy x hx'
    | false =>
      have hp' : ¬ p y = true := by simp [hp]
      rw [List.find?_cons_of_neg _ hp'] at hf
      intro x hx hpx
      rcases List.mem_cons.mp hx with rfl | hx'
      · rw [hpx] at hp
        exact absurd hp (by simp)
      · exact ih hys hf x hx' hpx

theorem matchUserRules_spec (env : CatEnv) (t : TransactionForCategorization)
    (r : CategorizationResult) (h : matchUserRules env t = some r) :
    r.confidence = 95 ∧
    ∃ rule ∈ env.rules,
      env.ruleMatches rule.merchantPattern
        (orElseStr t.merchantName t.description) = true ∧
      r = ⟨rule.categoryId, 95⟩ ∧
      ∀ r2 ∈ env.rules,
        env.ruleMatches r2.merchantPattern
          (orElseStr t.merchantName t.description) = true →
        r2.priority ≤ rule.priority := by
  unfold matchUserRules at h
  dsimp only at h
  cases hf : (sortByPriorityDesc env.rules).find? (fun rl =>
      env.ruleMatches rl.merchantPattern
        (orElseStr t.merchantName t.description)) with
  | none =>
    rw [hf] at h
    simp at h
  | some rule =>
    rw [hf] at h
    simp only [Option.map_some'] at h
    cases h
    refine ⟨rfl, rule, ?_, ?_, rfl, ?_⟩
    · exact (mem_sortByPriorityDesc env.rules rule).mp
        (List.mem_of_find?_eq_some hf)
    · have h3 := List.find?_some hf
      exact h3
    · intro r2 hr2 hm2
      exact find?_max_of_sorted (sorted_sortByPriorityDesc env.rules) hf r2
        ((mem_sortByPriorityDesc env.rules r2).mpr hr2) hm2

theorem matchMerchantPattern_spec (env : CatEnv)
    (t : TransactionForCategorization) (r : CategorizationResult)
    (h : matchMerchantPattern env t = some r) : r.confidence ≤ 100 := by
  unfold matchMerchantPattern at h
  by_cases hm : (orElseStr t.merchantName t.description == "") = true
  · rw [if_pos hm] at h
    simp at h
  · rw [if_neg hm] at h
    obtain ⟨p, hp, hfp⟩ := List.exists_of_findSome?_eq_some h
    by_cases hc : containsAny
        (jsToLower (orElseStr t.merchantName t.description)) p.1 = true
    · rw [if_pos hc] at hfp
      cases hcat : findSystemCategory env p.2.1 with
      | none =>
        rw [hcat] at hfp
        simp at hfp
      | some c =>
        rw [hcat] at hfp
        simp only [Option.map_some'] at hfp
        cases hfp
        have : ∀ q ∈ merchantPatterns, q.2.2 ≤ 100 := by decide
        exact this p hp
    · rw [if_neg hc] at hfp
      simp at hfp

theorem matchPlaidCategory_spec (env : CatEnv)
    (t : TransactionForCategorization) (r : CategorizationResult)
    (h : matchPlaidCategory env t = some r) : r.confidence = 70 := by
  unfold matchPlaidCategory at h
  cases hpc : t.plaidCategory with
  | none =>
    rw [hpc] at h
    simp at h
  | some cats =>
    rw [hpc] at h
    dsimp only at h
    by_cases hz : cats.length = 0
    · rw [if_pos hz] at h
      simp at h
    · rw [if_neg hz] at h
      cases hmap : categoryMapping.find? (fun p => p.1 == cats.getLastD "") with
      | none =>
        rw [hmap] at h
        simp at h
      | some p =>
        rw [hmap] at h
        dsimp only at h
        cases hcat : findSystemCategory env p.2 with
        | none =>
          rw [hcat] at h
          simp at h
        | some c =>
          rw [hcat] at h
          simp only [Option.map_some'] at h
          cases h
          rfl

theorem categorizeWithAI_spec (env : CatEnv) (uid : String)
    (t : TransactionForCategorization) (r : CategorizationResult)
    (h : categorizeWithAI env uid t = some r) : r.confidence = 80 := by
  unfold categorizeWithAI at h
  cases hs : env.aiSuggestion with
  | none =>
    rw [hs] at h
    simp at h
  | some suggested =>
    rw [hs] at h
    dsimp only at h
    cases hfind : (env.categories.filter
        (fun c => c.isSystem || c.userId == some uid)).find?
        (fun c => jsToLower c.name == jsToLower suggested) with
    | none =>
      rw [hfind] at h
      simp at h
    | some c =>
      rw [hfind] at h
      simp only [Option.map_some'] at h
      cases h
      rfl

/-! ### Claim theorems -/

/-- C2: for every budget found for the user, `getBudgetProgress` computes
`currentSpending` as the sum of amounts of the user's non-pending
transactions whose `categoryId` equals the budget's category and whose date
lies within `[startDate, endDate]`; `percentageUsed` is
`currentSpending / amount * 100` (and `0` when the amount is not positive);
and `shouldAlert` holds iff `percentageUsed` reaches the alert threshold. -/
theorem budget_progress_correct (st : BudgetState) (budgetId uid : String)
    (now : ℤ) (b : Budget)
    (hfind : st.budgets.find? (fun x => x.id == budgetId && x.userId == uid) =
      some b) :
    ∃ p : BudgetProgress, getBudgetProgress st budgetId uid now = .ok p ∧
      p.budget = b ∧
      p.currentSpending = ((st.transactions.filter (fun t =>
        t.userId == b.userId && t.categoryId == some b.categoryId
          && decide (b.startDate ≤ t.date) && decide (t.date ≤ b.endDate)
          && !t.isPending)).map (fun t => t.amount)).sum ∧
      p.percentageUsed =
        (if 0 < b.amount then p.currentSpending / b.amount * 100 else 0) ∧
      (p.shouldAlert = true ↔ b.alertThreshold ≤ p.percentageUsed) := by
  unfold getBudgetProgress calculateSpending
  rw [hfind]
  exact ⟨_, rfl, rfl, rfl, rfl, by simp⟩

def budgetW : Budget := ⟨"b0", "u1", "c1", 200, "monthly", 0, 100, 80, true⟩

def budgetStateW : BudgetState :=
  ⟨[budgetW], [],
    [⟨"t1", "u1", 170, 50, none, "d", some ("c1"), 0, false, none, none⟩]⟩

/-- Witness for `budget_progress_correct` at a concrete state: the single
170-amount transaction gives 85% of the 200 budget, which crosses the 80%
alert threshold. -/
theorem budget_progress_witness :
    budgetStateW.budgets.find? (fun x => x.id == "b0" && x.userId == "u1") =
      some budgetW ∧
    ∃ p, getBudgetProgress budgetStateW "b0" "u1" 0 = .ok p ∧
      p.currentSpending = 170 ∧ p.percentageUsed = 85 ∧
      p.shouldAlert = true := by
  refine ⟨rfl, ?_⟩
  obtain ⟨p, hp, _, hs, hpct, halert⟩ :=
    budget_progress_correct budgetStateW "b0" "u1" 0 budgetW rfl
  have hs' : p.currentSpending = 170 := by
    rw [hs]
    norm_num [budgetStateW, budgetW]
  have hpct' : p.percentageUsed = 85 := by
    rw [hpct, hs']
    norm_num [budgetW]
  exact ⟨p, hp, hs', hpct', halert.mpr (by rw [hpct']; norm_num [budgetW])⟩

/-- C4: `checkRapidTransactions` raises an alert exactly when at least 4
other transactions of the same user have dates in the 5-minute window
strictly before the analyzed transaction's date, and the severity is `high`
iff the total count (including the analyzed transaction) is at least 6,
`medium` otherwise. -/
theorem rapid_transactions_correct (db : List Txn) (uid : String) (t : Txn) :
    ((checkRapidTransactions db uid t).isUnusual = true ↔
      4 ≤ (db.filter (fun o => o.userId == uid && !(o.id == t.id)
        && decide (t.date - 5 * 60 * 1000 ≤ o.date)
        && decide (o.date < t.date))).length) ∧
    (4 ≤ (db.filter (fun o => o.userId == uid && !(o.id == t.id)
        && decide (t.date - 5 * 60 * 1000 ≤ o.date)
        && decide (o.date < t.date))).length →
      (checkRapidTransactions db uid t).severity =
        (if 6 ≤ (db.filter (fun o => o.userId == uid && !(o.id == t.id)
            && decide (t.date - 5 * 60 * 1000 ≤ o.date)
            && decide (o.date < t.date))).length + 1 then
          FraudAlertSeverity.high
        else FraudAlertSeverity.medium)) := by
  have hrec : recentTransactions db uid t =
      db.filter (fun o => o.userId == uid && !(o.id == t.id)
        && decide (t.date - 5 * 60 * 1000 ≤ o.date)
        && decide (o.date < t.date)) := rfl
  rw [← hrec]
  by_cases h : 4 ≤ (recentTransactions db uid t).length
  · constructor
    · simp [checkRapidTransactions, h]
    · intro _
      simp [checkRapidTransactions, h]
  · constructor
    · simp [checkRapidTransactions, h]
    · intro h4
      exact absurd h4 h

def rapidDbW : List Txn :=
  (List.range 5).map (fun n =>
    ⟨toString n, "u1", 5, -1000 * (n : ℤ) - 1, none, "d", none, 0, false,
      none, none⟩)

def rapidTxW : Txn := ⟨"t9", "u1", 5, 0, none, "d", none, 0, false, none, none⟩

/-- Witness for `rapid_transactions_correct`: five other transactions within
the trailing five minutes fire the alert and push the total count to 6,
hence severity `high`. -/
theorem rapid_transactions_witness :
    4 ≤ (rapidDbW.filter (fun o => o.userId == "u1" && !(o.id == rapidTxW.id)
        && decide (rapidTxW.date - 5 * 60 * 1000 ≤ o.date)
        && decide (o.date < rapidTxW.date))).length ∧
    (checkRapidTransactions rapidDbW "u1" rapidTxW).isUnusual = true ∧
    (checkRapidTransactions rapidDbW "u1" rapidTxW).severity =
      FraudAlertSeverity.high := by
  have h := rapid_transactions_correct rapidDbW "u1" rapidTxW
  have h4 : 4 ≤ (rapidDbW.filter (fun o => o.userId == "u1"
      && !(o.id == rapidTxW.id)
      && decide (rapidTxW.date - 5 * 60 * 1000 ≤ o.date)
      && decide (o.date < rapidTxW.date))).length := by decide
  refine ⟨h4, h.1.mpr h4, ?_⟩
  rw [h.2 h4]
  decide

/-- C7: the sync scheduler's interval constant is 24 hours; on the n-th
consecutive failure of an account with `1 ≤ n ≤ 3` the retry map entry
becomes `n` and a retry is scheduled after `1 hour * 2 ^ (n - 1)`; the
failure after the 3rd retry removes the entry and gives up; and a
successful sync removes the entry. -/
theorem sync_backoff_correct (q : RetryQueue) (accountId : String) (now : ℤ) :
    SYNC_INTERVAL_MS = 24 * 60 * 60 * 1000 ∧
    BASE_RETRY_DELAY_MS = 60 * 60 * 1000 ∧
    (∀ n : ℕ, ((lookupKey q accountId).getD ⟨0, now⟩).retryCount + 1 = n →
      ((1 ≤ n ∧ n ≤ 3) →
        handleSyncFailure q accountId now =
          (setKey q accountId
              ⟨n, now + (BASE_RETRY_DELAY_MS * 2 ^ (n - 1) : ℕ)⟩,
            SyncAction.scheduleRetry (BASE_RETRY_DELAY_MS * 2 ^ (n - 1))) ∧
        lookupKey (handleSyncFailure q accountId now).1 accountId =
          some ⟨n, now + (BASE_RETRY_DELAY_MS * 2 ^ (n - 1) : ℕ)⟩) ∧
      (3 < n →
        handleSyncFailure q accountId now =
          (deleteKey q accountId, SyncAction.giveUp) ∧
        lookupKey (handleSyncFailure q accountId now).1 accountId = none)) ∧
    lookupKey (handleSyncSuccess q accountId) accountId = none := by
  refine ⟨rfl, rfl, ?_, lookupKey_deleteKey q accountId⟩
  intro n hn
  constructor
  · intro ⟨_, hn3⟩
    have hle : ((lookupKey q accountId).getD ⟨0, now⟩).retryCount + 1 ≤
        MAX_RETRIES := by
      rw [hn]; exact hn3
    have heq : handleSyncFailure q accountId now =
        (setKey q accountId ⟨n, now + (BASE_RETRY_DELAY_MS * 2 ^ (n - 1) : ℕ)⟩,
          SyncAction.scheduleRetry (BASE_RETRY_DELAY_MS * 2 ^ (n - 1))) := by
      unfold handleSyncFailure
      rw [if_pos hle, hn]
    exact ⟨heq, by rw [heq]; exact lookupKey_setKey _ _ _⟩
  · intro hn3
    have hgt : ¬ (((lookupKey q accountId).getD ⟨0, now⟩).retryCount + 1 ≤
        MAX_RETRIES) := by
      rw [hn]; exact Nat.not_le_of_lt hn3
    have heq : handleSyncFailure q accountId now =
        (deleteKey q accountId, SyncAction.giveUp) := by
      unfold handleSyncFailure
      rw [if_neg hgt]
    exact ⟨heq, by rw [heq]; exact lookupKey_deleteKey q accountId⟩

/-- Witness for `sync_backoff_correct`: an account already at retry count 2
fails again (third attempt): the entry becomes 3 and the retry is scheduled
4 hours out; at count 3 a further failure gives up and clears the entry. -/
theorem sync_backoff_witness :
    ((lookupKey [("a1", ⟨2, 0⟩)] "a1").getD ⟨0, 0⟩).retryCount + 1 = 3 ∧
    handleSyncFailure [("a1", ⟨2, 0⟩)] "a1" 0 =
      ([("a1", ⟨3, 14400000⟩)], SyncAction.scheduleRetry 14400000) ∧
    handleSyncFailure [("a1", ⟨3, 0⟩)] "a1" 0 = ([], SyncAction.giveUp) := by
  have h1 := (sync_backoff_correct [("a1", ⟨2, 0⟩)] "a1" 0).2.2.1 3 rfl
  have h2 := (sync_backoff_correct [("a1", ⟨3, 0⟩)] "a1" 0).2.2.1 4 rfl
  refine ⟨rfl, ?_, ?_⟩
  · have := (h1.1 (by decide)).1
    rw [this]
    decide
  · have := (h2.2 (by decide)).1
    rw [this]
    decide

/-- C1: `categorizeTransaction` always returns a confidence in `[0, 100]`,
chosen by the first matching stage of the fixed cascade: the user's learned
rules scanned in descending priority (confidence 95, and the matching rule
has maximal priority among the matching rules), then the built-in merchant
keyword patterns, then the Plaid mapping (confidence 70), then the OpenAI
fallback when configured (confidence 80), and otherwise the default
`Uncategorized` category with confidence 0. -/
theorem categorize_cascade_correct (env : CatEnv) (uid : String)
    (t : TransactionForCategorization) :
    (0 ≤ (categorizeTransaction env uid t).confidence ∧
      (categorizeTransaction env uid t).confidence ≤ 100) ∧
    (∀ r, matchUserRules env t = some r →
      categorizeTransaction env uid t = r ∧ r.confidence = 95 ∧
      ∃ rule ∈ env.rules,
        env.ruleMatches rule.merchantPattern
          (orElseStr t.merchantName t.description) = true ∧
        r.categoryId = rule.categoryId ∧
        ∀ r2 ∈ env.rules,
          env.ruleMatches r2.merchantPattern
            (orElseStr t.merchantName t.description) = true →
          r2.priority ≤ rule.priority) ∧
    (∀ r, matchUserRules env t = none → matchMerchantPattern env t = some r →
      categorizeTransaction env uid t = r) ∧
    (∀ r, matchUserRules env t = none → matchMerchantPattern env t = none →
      matchPlaidCategory env t = some r →
      categorizeTransaction env uid t = r ∧ r.confidence = 70) ∧
    (∀ r, matchUserRules env t = none → matchMerchantPattern env t = none →
      matchPlaidCategory env t = none → env.openaiConfigured = true →
      categorizeWithAI env uid t = some r →
      categorizeTransaction env uid t = r ∧ r.confidence = 80) ∧
    (matchUserRules env t = none → matchMerchantPattern env t = none →
      matchPlaidCategory env t = none →
      (env.openaiConfigured = false ∨ categorizeWithAI env uid t = none) →
      categorizeTransaction env uid t = ⟨getDefaultCategory env, 0⟩) := by
  refine ⟨?_, ?_, ?_, ?_, ?_, ?_⟩
  · cases h1 : matchUserRules env t with
    | some r =>
      have hc := (matchUserRules_spec env t r h1).1
      simp only [categorizeTransaction, h1]
      omega
    | none =>
      cases h2 : matchMerchantPattern env t with
      | some r =>
        have hc := matchMerchantPattern_spec env t r h2
        simp only [categorizeTransaction, h1, h2]
        omega
      | none =>
        cases h3 : matchPlaidCategory env t with
        | some r =>
          have hc := matchPlaidCategory_spec env t r h3
          simp only [categorizeTransaction, h1, h2, h3]
          omega
        | none =>
          cases h0 : env.openaiConfigured with
          | false =>
            simp [categorizeTransaction, h1, h2, h3, h0]
          | true =>
            cases h4 : categorizeWithAI env uid t with
            | some r =>
              have hc := categorizeWithAI_spec env uid t r h4
              simp only [categorizeTransaction, h1, h2, h3, h0, if_true, h4]
              omega
            | none =>
              simp only [categorizeTransaction, h1, h2, h3, h0, if_true, h4]
              omega
  · intro r h1
    obtain ⟨hc, rule, hmem, hmatch, hr, hmax⟩ := matchUserRules_spec env t r h1
    refine ⟨by simp only [categorizeTransaction, h1], hc, rule, hmem, hmatch,
      by rw [hr], hmax⟩
  · intro r h1 h2
    simp only [categorizeTransaction, h1, h2]
  · intro r h1 h2 h3
    exact ⟨by simp only [categorizeTransaction, h1, h2, h3],
      matchPlaidCategory_spec env t r h3⟩
  · intro r h1 h2 h3 h0 h4
    exact ⟨by simp only [categorizeTransaction, h1, h2, h3, h0, if_true, h4],
      categorizeWithAI_spec env uid t r h4⟩
  · intro h1 h2 h3 h04
    rcases h04 with h0 | h4
    · simp [categorizeTransaction, h1, h2, h3, h0]
    · cases h0 : env.openaiConfigured with
      | false => simp [categorizeTransaction, h1, h2, h3, h0]
      | true => simp only [categorizeTransaction, h1, h2, h3, h0, if_true, h4]

def catEnvW : CatEnv :=
  ⟨[⟨"r2", "u1", "^S", "cShop", 50, true⟩,
    ⟨"r1", "u1", "^Star", "cDine", 100, true⟩],
   [⟨"cDine", none, "Dining", true⟩],
   fun _ _ => true, false, none, "freshUncat"⟩

def catTxW : TransactionForCategorization :=
  ⟨some ("Starbucks #12"), "coffee", none⟩

/-- Witness for `categorize_cascade_correct`: with two user rules whose
stored patterns both match, the priority-100 rule wins over the priority-50
rule and the cascade returns its category with confidence 95. -/
theorem categorize_cascade_witness :
    matchUserRules catEnvW catTxW = some ⟨"cDine", 95⟩ ∧
    categorizeTransaction catEnvW "u1" catTxW = ⟨"cDine", 95⟩ ∧
    (categorizeTransaction catEnvW "u1" catTxW).confidence ≤ 100 := by
  have hm : matchUserRules catEnvW catTxW = some ⟨"cDine", 95⟩ := by decide
  have h := categorize_cascade_correct catEnvW "u1" catTxW
  exact ⟨hm, (h.2.1 _ hm).1, h.1.2⟩

def casinoTxW : Txn :=
  ⟨"t1", "u1", 1, 0, some ("Casino Royale"), "night out", none, 0, false,
    none, none⟩

def dinerTxW : Txn :=
  ⟨"t2", "u2", 100000, 0, some ("Local Diner"), "meal", none, 0, false,
    none, none⟩

def dinerHistoryW : List Txn :=
  [⟨"t0", "u2", 5, -1000, none, "coffee", none, 0, false, none, none⟩]

/-- C3 counterexample: the `unusual_amount` alert is not a comparison of the
amount against a 30-day rolling spend baseline.  With no past transactions
at all (so no baseline exists), a 1-dollar transaction at a gambling
merchant raises the alert; while a 100000-dollar transaction, 20000 times
the user's entire trailing-30-day spend of 5, raises no alert of any
kind. -/
theorem unusual_amount_baseline_counterexample :
    ((analyzeTransaction [] [] 0 casinoTxW).2.map (fun a => a.alertType) =
      [FraudAlertType.unusual_amount]) ∧
    (analyzeTransaction dinerHistoryW [] 0 dinerTxW).2 = [] ∧
    (checkSketchyMerchant dinerTxW).isSketchy = false ∧
    (dinerHistoryW.map (fun t => t.amount)).sum = 5 := by
  refine ⟨by decide, by decide, by decide, by simp [dinerHistoryW]⟩

/-- C3 (amended): the `unusual_amount` alert type comes from the
sketchy-merchant check, which consults no user history at all: it fires
exactly when one of the fixed keyword pattern groups (gambling with word
boundaries, cryptocurrency, payday loans, wire transfers, adult content,
suspicious descriptions) matches the lowercased merchant name or
description, or the absolute amount is exactly 1000, 2000, 5000 or 10000;
the 30-day baseline is computed only for the unusual-location check. -/
theorem unusual_amount_is_merchant_check (t : Txn) :
    (checkSketchyMerchant t).isSketchy =
      (containsAnyWord (jsToLower (orElseStr t.merchantName ""))
          gamblingKeywords
        || containsAnyWord (jsToLower t.description) gamblingKeywords
        || containsAny (jsToLower (orElseStr t.merchantName "")) cryptoKeywords
        || containsAny (jsToLower t.description) cryptoKeywords
        || containsAny (jsToLower (orElseStr t.merchantName "")) paydayKeywords
        || containsAny (jsToLower t.description) paydayKeywords
        || containsAny (jsToLower (orElseStr t.merchantName "")) wireKeywords
        || containsAny (jsToLower t.description) wireKeywords
        || containsAny (jsToLower (orElseStr t.merchantName "")) adultKeywords
        || containsAny (jsToLower t.description) adultKeywords
        || containsAny (jsToLower (orElseStr t.merchantName ""))
          suspiciousKeywords
        || containsAny (jsToLower t.description) suspiciousKeywords
        || roundAmounts.contains |t.amount|) := by
  unfold checkSketchyMerchant
  dsimp only
  repeat' split
  all_goals simp_all

/-- C5: `checkUnusualLocation` produces a medium-severity alert exactly when
the transaction carries a truthy city and region, the user has at least 10
non-pending transactions dated in the trailing 30 days, and the
transaction's `"city,region"` key occurs in strictly fewer than 10% of those
transactions (so it is absent from the typical-locations set). -/
theorem unusual_location_correct (db : List Txn) (now : ℤ) (uid : String)
    (t : Txn) :
    ((checkUnusualLocation db now uid t).isUnusual = true ↔
      (strTruthy t.locationCity = true ∧ strTruthy t.locationRegion = true ∧
        10 ≤ (baselineTxns db uid now).length ∧
        ¬ ((baselineTxns db uid now).length ≤
          10 * ((baselineTxns db uid now).filterMap locationKey).count
            (t.locationCity.getD "" ++ "," ++ t.locationRegion.getD "")))) ∧
    ((checkUnusualLocation db now uid t).isUnusual = true →
      (checkUnusualLocation db now uid t).severity =
        FraudAlertSeverity.medium) := by
  unfold checkUnusualLocation
  by_cases hg : (strTruthy t.locationCity && strTruthy t.locationRegion) = true
  · rw [if_neg (by simp [hg])]
    obtain ⟨hg1, hg2⟩ := Bool.and_eq_true_iff.mp hg
    dsimp only
    by_cases hlen0 : (baselineTxns db uid now).length = 0
    · have hc : (calculateUserBaseline db uid now).transactionCount = 0 := by
        unfold calculateUserBaseline
        rw [if_pos hlen0]
      rw [if_pos (by rw [hc]; norm_num)]
      constructor
      · constructor
        · intro hfalse
          simp at hfalse
        · rintro ⟨-, -, hge, -⟩
          omega
      · intro hfalse
        simp at hfalse
    · have hc : (calculateUserBaseline db uid now).transactionCount =
          (baselineTxns db uid now).length := by
        unfold calculateUserBaseline
        rw [if_neg hlen0]
      by_cases h10 : (baselineTxns db uid now).length < 10
      · rw [if_pos (by rw [hc]; exact h10)]
        constructor
        · constructor
          · intro hfalse
            simp at hfalse
          · rintro ⟨-, -, hge, -⟩
            omega
        · intro hfalse
          simp at hfalse
      · rw [if_neg (by rw [hc]; exact h10)]
        cases hmem :
            (calculateUserBaseline db uid now).typicalLocations.contains
              (t.locationCity.getD "" ++ "," ++ t.locationRegion.getD "") with
        | true =>
          rw [if_neg (by decide)]
          have hthr := (mem_typicalLocations_iff db uid now
            (t.locationCity.getD "" ++ "," ++ t.locationRegion.getD "")
            hlen0).mp (by simpa using hmem)
          constructor
          · constructor
            · intro hfalse
              simp at hfalse
            · rintro ⟨-, -, -, hnot⟩
              exact absurd hthr hnot
          · intro hfalse
            simp at hfalse
        | false =>
          rw [if_pos (by decide)]
          have hnotmem : ¬ ((t.locationCity.getD "" ++ ","
                ++ t.locationRegion.getD "") ∈
              (calculateUserBaseline db uid now).typicalLocations) := by
            simpa using hmem
          have hthr : ¬ ((baselineTxns db uid now).length ≤
              10 * ((baselineTxns db uid now).filterMap locationKey).count
                (t.locationCity.getD "" ++ "," ++ t.locationRegion.getD "")) := by
            intro hle
            exact hnotmem ((mem_typicalLocations_iff db uid now
              (t.locationCity.getD "" ++ "," ++ t.locationRegion.getD "")
              hlen0).mpr hle)
          exact ⟨⟨fun _ => ⟨hg1, hg2, by omega, hthr⟩, fun _ => rfl⟩,
            fun _ => rfl⟩
  · rw [if_pos (by simp [Bool.eq_false_iff.mpr hg])]
    constructor
    · constructor
      · intro hfalse
        simp at hfalse
      · rintro ⟨hg1, hg2, -, -⟩
        exact (hg (by rw [hg1, hg2]; decide)).elim
    · intro hfalse
      simp at hfalse

def locDbW : List Txn :=
  (List.range 10).map (fun n =>
    ⟨toString n, "u1", 5, 0, none, "d", none, 0, false, some ("Austin"),
      some ("TX")⟩)

def locTxW : Txn :=
  ⟨"t9", "u1", 5, 0, none, "d", none, 0, false, some ("Waco"), some ("TX")⟩

/-- Witness for `unusual_location_correct`: ten trailing-30-day transactions
all in Austin,TX make a transaction in Waco,TX unusual with severity
medium. -/
theorem unusual_location_witness :
    (checkUnusualLocation locDbW 0 "u1" locTxW).isUnusual = true ∧
    (checkUnusualLocation locDbW 0 "u1" locTxW).severity =
      FraudAlertSeverity.medium := by
  have h := unusual_location_correct locDbW 0 "u1" locTxW
  have hfire : (checkUnusualLocation locDbW 0 "u1" locTxW).isUnusual = true :=
    h.1.mpr ⟨by decide, by decide, by decide, by decide⟩
  exact ⟨hfire, h.2 hfire⟩

/-- C6: after any sequence of `analyzeTransaction` calls starting from an
empty store, at most one fraud alert exists per `(transactionId, alertType)`
pair, and when an alert for the pair already exists `createFraudAlert`
returns the existing alert with the store unchanged instead of creating a
second one. -/
theorem fraud_alerts_deduplicated (db : List Txn) (now : ℤ) (txs : List Txn)
    (store : List FraudAlert) (input : CreateFraudAlertInput) (e : FraudAlert)
    (hvalid : validateFraudAlertInput input = true)
    (hfind : store.find? (fun a => a.transactionId == input.transactionId
        && a.alertType == input.alertType) = some e) :
    AlertKeyUnique (runAnalyses db now txs) ∧
    createFraudAlert store input = .ok (store, e) := by
  refine ⟨runAnalyses_unique db now txs, ?_⟩
  unfold createFraudAlert
  rw [hvalid, hfind]
  rfl

def alertW : FraudAlert :=
  ⟨"u1", "t1", .unusual_amount, .medium, "Gambling transaction detected",
    false, false⟩

def alertInputW : CreateFraudAlertInput :=
  ⟨"u1", "t1", .unusual_amount, .high, "Gambling transaction detected"⟩

/-- Witness for `fraud_alerts_deduplicated`: with an alert already stored
for `("t1", unusual_amount)`, a second creation attempt for the same pair
returns the stored alert and leaves the store unchanged; a two-call analysis
run keeps the per-pair uniqueness invariant. -/
theorem fraud_alerts_dedup_witness :
    validateFraudAlertInput alertInputW = true ∧
    [alertW].find? (fun a => a.transactionId == alertInputW.transactionId
      && a.alertType == alertInputW.alertType) = some alertW ∧
    AlertKeyUnique (runAnalyses [] 0 [rapidTxW, rapidTxW]) ∧
    createFraudAlert [alertW] alertInputW = .ok ([alertW], alertW) := by
  have h := fraud_alerts_deduplicated [] 0 [rapidTxW, rapidTxW] [alertW]
    alertInputW alertW (by decide) (by decide)
  exact ⟨by decide, by decide, h.1, h.2⟩

/-- C8 counterexample: a transaction with stored confidence 0 (below 70) but
no joined category name does not get the `Review` badge on the transactions
list page, so not every below-70 transaction is flagged. -/
theorem review_badge_counterexample :
    ¬ (∀ (conf : ℤ) (name : Option String),
        conf < 70 → listReviewBadge conf name = true) := by
  intro h
  have := h 0 none (by decide)
  simp [listReviewBadge, strTruthy] at this

/-- C8 (amended): the detail view flags exactly the transactions with stored
confidence below 70; the transactions list flags exactly those that in
addition carry a truthy (present, nonempty) category name; in particular no
transaction with confidence at or above 70 is flagged anywhere. -/
theorem review_badges_characterization (conf : ℤ) (name : Option String) :
    (detailReviewBadge conf = true ↔ conf < 70) ∧
    (listReviewBadge conf name = true ↔ conf < 70 ∧ strTruthy name = true) := by
  constructor
  · simp [detailReviewBadge]
  · simp [listReviewBadge]

theorem validate_true_facts (i : CreateBudgetInput)
    (h : validateCreateBudgetInput i = true) :
    0 < i.amount ∧ validatePeriod i.period = true ∧
    i.startDate < i.endDate ∧
    ∀ thr, i.alertThreshold = some thr → (0 < thr ∧ thr ≤ 100) := by
  unfold validateCreateBudgetInput at h
  simp only [Bool.and_eq_true, decide_eq_true_eq] at h
  obtain ⟨⟨⟨⟨⟨-, -⟩, ham⟩, hper⟩, hdr⟩, hthr⟩ := h
  refine ⟨ham, hper, by simpa [validateDateRange] using hdr, ?_⟩
  intro thr hth
  rw [hth] at hthr
  simpa [validateAlertThreshold] using hthr

/-- C9: `createBudget` throws (and leaves the stored budgets unchanged)
whenever the requested range overlaps an existing active budget of the same
user and category, or validation fails: non-positive amount, period not
monthly/quarterly/annual, alert threshold outside `(0, 100]`, end date not
after start date, or the category is not found for the user. -/
theorem create_budget_error_cases (st : BudgetState) (i : CreateBudgetInput)
    (newId : String) :
    (i.amount ≤ 0 → ∃ e, createBudget st i newId = .error e) ∧
    (validatePeriod i.period = false →
      ∃ e, createBudget st i newId = .error e) ∧
    (∀ thr, i.alertThreshold = some thr → ¬ (0 < thr ∧ thr ≤ 100) →
      ∃ e, createBudget st i newId = .error e) ∧
    (i.endDate ≤ i.startDate → ∃ e, createBudget st i newId = .error e) ∧
    (st.categories.find?
        (fun c => categoryAccessible c i.categoryId i.userId) = none →
      ∃ e, createBudget st i newId = .error e) ∧
    ((∃ b ∈ st.budgets, b.userId = i.userId ∧ b.categoryId = i.categoryId ∧
        b.isActive = true ∧ b.startDate ≤ i.endDate ∧
        i.startDate ≤ b.endDate) →
      ∃ e, createBudget st i newId = .error e) ∧
    (∀ e, createBudget st i newId = .error e →
      budgetsAfterCreate st i newId = st.budgets) := by
  have herr_invalid : validateCreateBudgetInput i = false →
      ∃ e, createBudget st i newId = Except.error e := by
    intro hv
    refine ⟨"Validation failed", ?_⟩
    simp [createBudget, hv]
  have herr_cat : st.categories.find?
      (fun c => categoryAccessible c i.categoryId i.userId) = none →
      ∃ e, createBudget st i newId = Except.error e := by
    intro hcat
    cases hv : validateCreateBudgetInput i with
    | false => exact herr_invalid hv
    | true =>
      refine ⟨"Category not found", ?_⟩
      simp [createBudget, hv, hcat]
  refine ⟨?_, ?_, ?_, ?_, herr_cat, ?_, ?_⟩
  · intro ham
    cases hv : validateCreateBudgetInput i with
    | false => exact herr_invalid hv
    | true => exact absurd (validate_true_facts i hv).1 (not_lt.mpr ham)
  · intro hper
    cases hv : validateCreateBudgetInput i with
    | false => exact herr_invalid hv
    | true =>
      have := (validate_true_facts i hv).2.1
      rw [hper] at this
      exact absurd this (by simp)
  · intro thr hth hrange
    cases hv : validateCreateBudgetInput i with
    | false => exact herr_invalid hv
    | true => exact absurd ((validate_true_facts i hv).2.2.2 thr hth) hrange
  · intro hdr
    cases hv : validateCreateBudgetInput i with
    | false => exact herr_invalid hv
    | true =>
      exact absurd (validate_true_facts i hv).2.2.1 (not_lt.mpr hdr)
  · rintro ⟨b, hb, hbu, hbc, hba, hse, hes⟩
    cases hv : validateCreateBudgetInput i with
    | false => exact herr_invalid hv
    | true =>
      cases hcat : st.categories.find?
          (fun c => categoryAccessible c i.categoryId i.userId) with
      | none => exact herr_cat hcat
      | some c =>
        have hov : overlapsBudget b i = true := by
          simp only [overlapsBudget, hbu, hbc, hba, beq_self_eq_true,
            Bool.true_and, Bool.and_eq_true, Bool.or_eq_true,
            decide_eq_true_eq]
          omega
        have hany : st.budgets.any (fun x => overlapsBudget x i) = true :=
          List.any_eq_true.mpr ⟨b, hb, hov⟩
        refine ⟨"A budget already exists for this category in the specified time period", ?_⟩
        simp [createBudget, hv, hcat, hany]
  · intro e he
    unfold budgetsAfterCreate
    rw [he]

def budgetOverW : Budget := ⟨"b0", "u1", "c1", 50, "monthly", 50, 150, 80, true⟩

def budgetStW : BudgetState :=
  ⟨[budgetOverW], [⟨"c1", none, "Dining", true⟩], []⟩

def budgetInW : CreateBudgetInput := ⟨"u1", "c1", 100, "monthly", 0, 100, none⟩

/-- Witness for `create_budget_error_cases`: a valid request whose range
`[0, 100]` overlaps the stored active budget `[50, 150]` of the same user
and category is rejected and the stored budgets are unchanged. -/
theorem create_budget_witness :
    (∃ b ∈ budgetStW.budgets, b.userId = budgetInW.userId ∧
      b.categoryId = budgetInW.categoryId ∧ b.isActive = true ∧
      b.startDate ≤ budgetInW.endDate ∧
      budgetInW.startDate ≤ b.endDate) ∧
    (∃ e, createBudget budgetStW budgetInW "b1" = .error e) ∧
    budgetsAfterCreate budgetStW budgetInW "b1" = budgetStW.budgets := by
  have h := create_budget_error_cases budgetStW budgetInW "b1"
  have hov : ∃ b ∈ budgetStW.budgets, b.userId = budgetInW.userId ∧
      b.categoryId = budgetInW.categoryId ∧ b.isActive = true ∧
      b.startDate ≤ budgetInW.endDate ∧ budgetInW.startDate ≤ b.endDate := by
    refine ⟨budgetOverW, by decide, by decide, by decide, by decide,
      by decide, by decide⟩
  obtain ⟨e, he⟩ := h.2.2.2.2.2.1 hov
  exact ⟨hov, ⟨e, he⟩, h.2.2.2.2.2.2 e he⟩

/-- C10: `updateCategory` sets the transaction's stored confidence to
exactly 100 and its category to the chosen one, and learns a rule for the
merchant: an existing rule with the same merchant pattern gets the new
category and its priority incremented by 1; otherwise a new rule is created
whose priority is strictly greater than every existing rule of the user
(100 when the user has none). -/
theorem update_category_learns (st : AppState)
    (transactionId uid categoryId newRuleId : String) (tx : Txn)
    (cat : Category)
    (hTx : st.transactions.find?
      (fun t => t.id == transactionId && t.userId == uid) = some tx)
    (hCat : st.categories.find?
      (fun c => categoryAccessible c categoryId uid) = some cat) :
    ∃ st2, updateCategory st transactionId uid categoryId newRuleId =
        .ok st2 ∧
      st2.transactions.find?
          (fun t => t.id == transactionId && t.userId == uid) =
        some { tx with categoryId := some categoryId,
                       categoryConfidence := 100 } ∧
      (∀ r0, st.rules.find? (fun r => r.userId == uid &&
          r.merchantPattern ==
            createMerchantPattern (orElseStr tx.merchantName tx.description))
            = some r0 →
        st2.rules = st.rules.map (fun r => if r.id == r0.id then
          { r with categoryId := categoryId, priority := r.priority + 1,
                   learnedFromUser := true }
          else r)) ∧
      (st.rules.find? (fun r => r.userId == uid &&
          r.merchantPattern ==
            createMerchantPattern (orElseStr tx.merchantName tx.description))
            = none →
        ∃ newPriority,
          st2.rules = st.rules ++ [⟨newRuleId, uid,
            createMerchantPattern (orElseStr tx.merchantName tx.description),
            categoryId, newPriority, true⟩] ∧
          (∀ r ∈ st.rules, r.userId = uid → r.priority < newPriority) ∧
          ((∀ r ∈ st.rules, r.userId ≠ uid) → newPriority = 100)) := by
  have hq := List.find?_some hTx
  simp only [Bool.and_eq_true] at hq
  have hid : (tx.id == transactionId) = true := hq.1
  have hpres : ∀ x : Txn,
      ((fun t : Txn => t.id == transactionId && t.userId == uid)
        ((fun t : Txn => if t.id == transactionId then
          { t with categoryId := some categoryId,
                   categoryConfidence := 100 }
          else t) x)) =
      ((fun t : Txn => t.id == transactionId && t.userId == uid) x) := by
    intro x
    by_cases hx : (x.id == transactionId) = true
    · simp only [if_pos hx]
    · simp only [if_neg hx]
  have hTx1 : (st.transactions.map (fun t => if t.id == transactionId then
      { t with categoryId := some categoryId, categoryConfidence := 100 }
      else t)).find?
      (fun t => t.id == transactionId && t.userId == uid) =
      some { tx with categoryId := some categoryId,
                     categoryConfidence := 100 } := by
    rw [find?_map_id_pred _ _ _ hpres, hTx, Option.map_some']
    simp only [hid, if_true]
  unfold updateCategory
  rw [hTx, hCat]
  dsimp only
  unfold learnFromCorrection
  rw [hTx1, hCat]
  dsimp only
  cases hrule : st.rules.find? (fun r => r.userId == uid &&
      r.merchantPattern ==
        createMerchantPattern (orElseStr tx.merchantName tx.description))
      with
  | some r0 =>
    dsimp only
    refine ⟨_, rfl, hTx1, ?_, ?_⟩
    · intro r1 hr1
      cases hr1
      rfl
    · intro hnone
      cases hnone
  | none =>
    dsimp only
    refine ⟨_, rfl, hTx1, ?_, ?_⟩
    · intro r1 hr1
      cases hr1
    · intro _
      cases hmax : maxUserPriority st.rules uid with
      | some p =>
        refine ⟨p + 1, rfl, ?_, ?_⟩
        · intro r hr hru
          obtain ⟨p2, hp2, hle⟩ := maxUserPriority_le st.rules uid r hr hru
          rw [hmax] at hp2
          cases hp2
          omega
        · intro hnouser
          rw [maxUserPriority_eq_none st.rules uid hnouser] at hmax
          cases hmax
      | none =>
        refine ⟨100, rfl, ?_, fun _ => rfl⟩
        intro r hr hru
        obtain ⟨p2, hp2, -⟩ := maxUserPriority_le st.rules uid r hr hru
        rw [hmax] at hp2
        cases hp2

def learnTxW : Txn :=
  ⟨"t1", "u1", 12, 0, some ("Star*Bucks Inc"), "coffee", none, 40, false,
    none, none⟩

def learnStW : AppState :=
  ⟨[learnTxW], [⟨"c1", none, "Dining", true⟩],
    [⟨"r9", "u1", "^Other", "c1", 7, false⟩]⟩

/-- Witness for `update_category_learns`: correcting the category of a
`Star*Bucks Inc` transaction stores confidence 100 and appends a learned
rule with pattern `^Star\*Bucks` whose priority exceeds the user's existing
priority-7 rule. -/
theorem update_category_witness :
    learnStW.transactions.find?
      (fun t => t.id == "t1" && t.userId == "u1") = some learnTxW ∧
    learnStW.categories.find?
      (fun c => categoryAccessible c "c1" "u1") =
      some ⟨"c1", none, "Dining", true⟩ ∧
    ∃ st2, updateCategory learnStW "t1" "u1" "c1" "r10" = .ok st2 ∧
      st2.transactions.find?
          (fun t => t.id == "t1" && t.userId == "u1") =
        some { learnTxW with categoryId := some ("c1"),
                             categoryConfidence := 100 } ∧
      ∃ np, st2.rules = learnStW.rules ++
          [⟨"r10", "u1", "^Star\\*Bucks", "c1", np, true⟩] ∧
        7 < np := by
  have h := update_category_learns learnStW "t1" "u1" "c1" "r10" learnTxW
    ⟨"c1", none, "Dining", true⟩ (by decide) (by decide)
  obtain ⟨st2, hok, htx, -, hnew⟩ := h
  obtain ⟨newPriority, hrules, hbound, -⟩ := hnew (by decide)
  refine ⟨by decide, by decide, st2, hok, htx, newPriority, ?_, ?_⟩
  · have hpat : createMerchantPattern
        (orElseStr learnTxW.merchantName learnTxW.description) =
        "^Star\\*Bucks" := by decide
    rw [hrules, hpat]
  · exact hbound ⟨"r9", "u1", "^Other", "c1", 7, false⟩ (by decide) rfl

end BloomBudget
